import Mathlib

/-!
Verification of the Assuan protocol engine of go-pinentry (v2).

The Go source is shallowly embedded: byte slices (`[]byte`) become `List Nat`
(each entry a byte value), strings passed to and from the client become byte
lists as well, the pinentry child process becomes an explicit stream of input
lines (`List (List Nat)`) consumed by the engine, and the lines written to the
process are collected in an output list.  Transport writes are modelled as
always succeeding; read errors (end of stream) and protocol errors are explicit
constructors of `PinentryError`.  Line numbers refer to the pinentry.go source
of the v2 module.
-/

namespace Pinentry

/-! ## Protocol codec -/

/-- Byte contents of a Go string literal (all literals used are ASCII). -/
def strToBytes (s : String) : List Nat :=
  s.data.map Char.toNat

/-- `bytes.HasPrefix line pre`. -/
def startsWithBytes (line pre : List Nat) : Bool :=
  line.take pre.length == pre

/-- Models `unicode.IsSpace` restricted to single bytes, as used via
`bytes.TrimSpace` on the ASCII protocol lines: space, TAB, LF, VT, FF, CR. -/
def isSpaceByte (b : Nat) : Bool :=
  b == 32 || b == 9 || b == 10 || b == 11 || b == 12 || b == 13

/-- `isBlank` (go.mod lines 493-495): `len(bytes.TrimSpace(line)) == 0`, i.e.
every byte of the line is whitespace. -/
def isBlank (line : List Nat) : Bool :=
  line.all isSpaceByte

/-- `isComment` (lines 497-500): the line starts with `#`. -/
def isComment (line : List Nat) : Bool :=
  startsWithBytes line [35]

/-- `isData` (lines 502-505): the line starts with `D `. -/
def isData (line : List Nat) : Bool :=
  startsWithBytes line [68, 32]

/-- `isError` (lines 507-510): the line starts with `ERR `. -/
def isError (line : List Nat) : Bool :=
  startsWithBytes line [69, 82, 82, 32]

/-- `isOK` (lines 512-515): the line starts with `OK`. -/
def isOK (line : List Nat) : Bool :=
  startsWithBytes line [79, 75]

/-- `isUppercaseHexDigit` (lines 517-527). -/
def isUppercaseHexDigit (c : Nat) : Bool :=
  if 48 ≤ c ∧ c ≤ 57 then true
  else if 65 ≤ c ∧ c ≤ 70 then true
  else false

/-- `uppercaseHexDigitValue` (lines 563-574). -/
def uppercaseHexDigitValue (c : Nat) : Nat :=
  if 48 ≤ c ∧ c ≤ 57 then c - 48
  else if 65 ≤ c ∧ c ≤ 70 then c - 65 + 10
  else 0

/-- `escape` (lines 469-485): percent-encode LF (10), CR (13) and `%` (37),
pass every other byte through. -/
def escape : List Nat → List Nat
  | [] => []
  | b :: rest =>
    (if b = 10 then [37, 48, 65]
     else if b = 13 then [37, 48, 68]
     else if b = 37 then [37, 50, 53]
     else [b]) ++ escape rest

/-- `unescape` (lines 548-561).  The Go loop condition `i < len(data)-2`
holds exactly when three bytes `data[i] data[i+1] data[i+2]` remain, which the
first pattern below captures; otherwise the current byte is copied. -/
def unescape : List Nat → List Nat
  | c :: a :: b :: rest =>
    if c == 37 && isUppercaseHexDigit a && isUppercaseHexDigit b then
      ((uppercaseHexDigitValue a) <<< 4 + uppercaseHexDigitValue b) :: unescape rest
    else
      c :: unescape (a :: b :: rest)
  | c :: rest => c :: unescape rest
  | [] => []

/-- `getPIN` (lines 487-490): lenient percent-decoding of a payload. -/
def getPIN (data : List Nat) : List Nat :=
  unescape data

/-- `true` iff some window of the input is a well-formed escape sequence, i.e.
some position satisfies the decode condition of the `unescape` loop. -/
def hasEscapeSequence : List Nat → Bool
  | c :: a :: b :: rest =>
    (c == 37 && isUppercaseHexDigit a && isUppercaseHexDigit b) || hasEscapeSequence (a :: b :: rest)
  | _ => false

/-! ## Error decoding -/

/-- ASCII decimal digit, as matched by `\d` in Go's regexp package. -/
def isDigitByte (b : Nat) : Bool :=
  decide (48 ≤ b ∧ b ≤ 57)

/-- Numeric value of a decimal digit string. -/
def digitsToNat (ds : List Nat) : Nat :=
  ds.foldl (fun acc d => 10 * acc + (d - 48)) 0

/-- Largest value of Go's `int` on a 64-bit platform. -/
def maxInt64 : Nat := 9223372036854775807

/-- Models `strconv.Atoi` on a nonempty string of decimal digits on a 64-bit
platform: such a string has no syntax error, so the only possible failure is
range, in which case `Atoi` returns the clamped maximum value together with
`ErrRange` (the error is discarded at the call site in `newError`). -/
def atoiDigits (ds : List Nat) : Int :=
  if digitsToNat ds ≤ maxInt64 then (digitsToNat ds : Int) else (maxInt64 : Int)

/-- Submatch extraction for `errorRx = \AERR (\d+) (.*)\z` (go.mod line 77)
over a line (which, per the `ReadLine` contract, carries no trailing
terminator): the line must start with `ERR `, continue with at least one
decimal digit, then a space, then the description, which `.` forbids from
containing a line feed.  Returns the digit group and the description group. -/
def errorRxFind (line : List Nat) : Option (List Nat × List Nat) :=
  if startsWithBytes line [69, 82, 82, 32] then
    let tail := line.drop 4
    let ds := tail.takeWhile isDigitByte
    match ds, tail.drop ds.length with
    | [], _ => none
    | _ :: _, 32 :: rest =>
      if rest.all (fun b => !(b == 10)) then some (ds, rest) else none
    | _ :: _, _ => none
  else none

/-- Errors produced by the engine: `AssuanError` (code and description),
`UnexpectedResponseError` (offending line), and a transport read failure
(end of stream in the model). -/
inductive PinentryError where
  | assuan (code : Int) (description : List Nat)
  | unexpectedResponse (line : List Nat)
  | readFailed
deriving DecidableEq, Repr

/-- `AssuanErrorCodeCancelled` (go.mod lines 46-49). -/
def AssuanErrorCodeCancelled : Int := 83886179

/-- `newError` (lines 529-540): decode an `ERR` line via `errorRx`; on a
regexp mismatch return an unexpected-response error, otherwise an
`AssuanError` with the code parsed by `strconv.Atoi` (error discarded). -/
def newError (line : List Nat) : PinentryError :=
  match errorRxFind line with
  | none => .unexpectedResponse line
  | some (ds, desc) => .assuan (atoiDigits ds) desc

/-- `IsCancelled` (lines 460-467): true iff the error is (or wraps, via
`errors.As`, which in this client is always a direct error value) an
`AssuanError` whose code is `AssuanErrorCodeCancelled`.  Takes an `Option` to
model Go's nilable `error`. -/
def IsCancelled : Option PinentryError → Bool
  | some (.assuan code _) => code == AssuanErrorCodeCancelled
  | _ => false

/-! ## Session engine

The `bufio` reader state is made explicit: each read returns the unconsumed
suffix of the input stream alongside its result. -/

/-- `Client.readLine` (lines 422-439): skip blank lines and comments, turn an
`ERR` line into the error returned by `newError`, return any other line;
an exhausted stream is the transport read failure. -/
def readLine : List (List Nat) → Except PinentryError (List Nat) × List (List Nat)
  | [] => (.error .readFailed, [])
  | l :: rest =>
    if isBlank l then readLine rest
    else if isComment l then readLine rest
    else if isError l then (.error (newError l), rest)
    else (.ok l, rest)

/-- `Client.readOK` (lines 441-451). -/
def readOK (s : List (List Nat)) : Option PinentryError × List (List Nat) :=
  match readLine s with
  | (.error e, rest) => (some e, rest)
  | (.ok l, rest) => if isOK l then (none, rest) else (some (.unexpectedResponse l), rest)

/-- `GetPINResult` (lines 347-352). -/
structure GetPINResult where
  PIN : List Nat
  PasswordFromCache : Bool
  PINRepeated : Bool
deriving DecidableEq, Repr

/-- The zero value `GetPINResult{}`. -/
def emptyGetPINResult : GetPINResult :=
  ⟨[], false, false⟩

/-- `QualityFunc` (line 83). -/
def QualityFunc : Type :=
  List Nat → Int × Bool

/-- The byte string `S PASSWORD_FROM_CACHE` compared against at line 369. -/
def lineSPasswordFromCache : List Nat :=
  [83, 32, 80, 65, 83, 83, 87, 79, 82, 68, 95, 70, 82, 79, 77, 95, 67, 65, 67, 72, 69]

/-- The byte string `S PIN_REPEATED` compared against at line 371. -/
def lineSPinRepeated : List Nat :=
  [83, 32, 80, 73, 78, 95, 82, 69, 80, 69, 65, 84, 69, 68]

/-- The byte string `INQUIRE QUALITY ` tested at line 373 (length 16). -/
def lineInquireQuality : List Nat :=
  [73, 78, 81, 85, 73, 82, 69, 32, 81, 85, 65, 76, 73, 84, 89, 32]

/-- `Client.writeLine` (lines 453-458) appends a single `\n` to the line. -/
def writeLineBytes (line : List Nat) : List Nat :=
  line ++ [10]

/-- Decimal digits of a natural number, as bytes. -/
def natToDecBytes (n : Nat) : List Nat :=
  (Nat.toDigits 10 n).map Char.toNat

/-- `fmt.Sprintf "%d"` for a (possibly negative) integer, as bytes. -/
def intToDecBytes (i : Int) : List Nat :=
  if i < 0 then 45 :: natToDecBytes i.natAbs else natToDecBytes i.toNat

/-- The quality reply `D <score>\n` written at line 381. -/
def dQualityWrite (q : Int) : List Nat :=
  writeLineBytes ([68, 32] ++ intToDecBytes q)

/-- The `END\n` write of line 384. -/
def endWrite : List Nat := writeLineBytes (strToBytes "END")

/-- The `CAN\n` write of line 388. -/
def canWrite : List Nat := writeLineBytes (strToBytes "CAN")

/-- The `GETPIN\n` write of line 357. -/
def getpinWrite : List Nat := writeLineBytes (strToBytes "GETPIN")

/-- The `BYE\n` write of line 302. -/
def byeWrite : List Nat := writeLineBytes (strToBytes "BYE")

/-- The read loop of `Client.GetPIN` (lines 360-395), accumulating into
`result`.  Each iteration reads one line through `Client.readLine`; to obtain
structural recursion on the stream, `readLine`'s skipping of blank and
comment lines and its interception of `ERR ` lines (lines 423-439) are
inlined as the first three cases, and `getPINLoop_eq_readLine` below proves
this equal to the literal composition with `readLine`.  Returns the Go
function's two results (`GetPINResult` and the error, `none` for nil)
together with the list of lines written during the loop (the quality
sub-exchange replies). -/
def getPINLoop (qf : QualityFunc) : List (List Nat) → GetPINResult →
    GetPINResult × Option PinentryError × List (List Nat)
  | [], _ => (emptyGetPINResult, some .readFailed, [])
  | l :: rest, result =>
    if isBlank l then getPINLoop qf rest result
    else if isComment l then getPINLoop qf rest result
    else if isError l then (emptyGetPINResult, some (newError l), [])
    else if isOK l then (result, none, [])
    else if isData l then
      getPINLoop qf rest { result with PIN := getPIN (l.drop 2) }
    else if l == lineSPasswordFromCache then
      getPINLoop qf rest { result with PasswordFromCache := true }
    else if l == lineSPinRepeated then
      getPINLoop qf rest { result with PINRepeated := true }
    else if startsWithBytes l lineInquireQuality then
      let pin := getPIN (l.drop 16)
      match qf pin with
      | (quality, true) =>
        let q := if quality < -100 then -100 else if quality > 100 then 100 else quality
        let out := getPINLoop qf rest result
        (out.1, out.2.1, dQualityWrite q :: endWrite :: out.2.2)
      | (_, false) =>
        let out := getPINLoop qf rest result
        (out.1, out.2.1, canWrite :: out.2.2)
    else (emptyGetPINResult, some (.unexpectedResponse l), [])

/-- `Client.GetPIN` (lines 354-396): write `GETPIN`, then run the read loop
starting from the zero result. -/
def GetPIN (qf : QualityFunc) (s : List (List Nat)) :
    GetPINResult × Option PinentryError × List (List Nat) :=
  let out := getPINLoop qf s emptyGetPINResult
  (out.1, out.2.1, getpinWrite :: out.2.2)

/-! ## Client construction and close -/

/-- Modelled from the spec: `combineErrors` lives in a repository utility file
that is not under `src/`; per the spec ("its error, if any, combined with the
handshake error", "combined (never dropped)") it merges two possibly-nil
errors keeping both in order, a nil contributing nothing. -/
def combineErrors (e1 e2 : Option PinentryError) : List PinentryError :=
  e1.toList ++ e2.toList

/-- `Client.Close` (lines 299-307) as run against a stream: write `BYE`, read
an OK reply; the deferred `process.Close` is modelled from the spec as the
transport release, which in the model always succeeds, so `combineErrorFunc`
leaves the `readOK` error unchanged.  Returns the close error and the lines
written. -/
def closeModel (s : List (List Nat)) : Option PinentryError × List (List Nat) :=
  ((readOK s).1, [byeWrite])

/-- The starting-command loop of `NewClient` (lines 290-294): each command is
written (`Client.command`, lines 414-420) and must be answered by an OK line;
the first failure stops the loop.  Returns the first error (if any), the lines
written, and the unconsumed stream. -/
def runStartingCommands : List (List Nat) → List (List Nat) →
    Option PinentryError × List (List Nat) × List (List Nat)
  | [], s => (none, [], s)
  | c :: cs, s =>
    match readOK s with
    | (some e, rest) => (some e, [writeLineBytes c], rest)
    | (none, rest) =>
      let out := runStartingCommands cs rest
      (out.1, writeLineBytes c :: out.2.1, out.2.2)

/-- Outcome of `NewClient`: whether a client was returned, the combined error
list (empty for nil), how many times the transport was closed, and the lines
written. -/
structure NewClientOutcome where
  ok : Bool
  errs : List PinentryError
  closeCount : Nat
  writes : List (List Nat)
deriving DecidableEq, Repr

/-- `NewClient` (lines 255-297) for a given configured command list, run
against a stream: `process.Start` is assumed to succeed (its failure is an
environment condition outside the stream model); then one line is read and
must be OK, then every starting command is sent in order.  On any error the
deferred handler runs `Close` exactly once and combines its error with the
first error instead of replacing it. -/
def NewClientModel (commands : List (List Nat)) (s : List (List Nat)) : NewClientOutcome :=
  match readLine s with
  | (.error e, rest) =>
    let c := closeModel rest
    ⟨false, combineErrors (some e) c.1, 1, c.2⟩
  | (.ok l, rest) =>
    if isOK l then
      match runStartingCommands commands rest with
      | (some e, ws, rest2) =>
        let c := closeModel rest2
        ⟨false, combineErrors (some e) c.1, 1, ws ++ c.2⟩
      | (none, ws, _) => ⟨true, [], 0, ws⟩
    else
      let c := closeModel rest
      ⟨false, combineErrors (some (.unexpectedResponse l)) c.1, 1, c.2⟩

/-! ## Sanity checks on concrete wire data -/

example : unescape (escape (strToBytes "a\r\n%b")) = strToBytes "a\r\n%b" := by decide
example : escape (strToBytes "a\r\n%b") = strToBytes "a%0D%0A%25b" := by decide
example : unescape (strToBytes "%zz%") = strToBytes "%zz%" := by decide
example : isOK (strToBytes "OK Pleased to meet you") = true := by decide
example : lineSPasswordFromCache = strToBytes "S PASSWORD_FROM_CACHE" := by decide
example : lineSPinRepeated = strToBytes "S PIN_REPEATED" := by decide
example : lineInquireQuality = strToBytes "INQUIRE QUALITY " := by decide

example : newError (strToBytes "ERR 83886179 Operation cancelled <Pinentry>") =
    .assuan 83886179 (strToBytes "Operation cancelled <Pinentry>") := by decide
example : newError (strToBytes "ERR x") = .unexpectedResponse (strToBytes "ERR x") := by decide
example : newError (strToBytes "ERR 42") = .unexpectedResponse (strToBytes "ERR 42") := by decide
example : IsCancelled (some (newError (strToBytes "ERR 83886179 cancelled"))) = true := by decide
example : IsCancelled (some (newError (strToBytes "ERR 1 fail"))) = false := by decide

/-! ## Codec theorems -/

theorem unescape_cons_of_ne (c : Nat) (hc : c ≠ 37) (rest : List Nat) :
    unescape (c :: rest) = c :: unescape rest := by
  have hbeq : (c == 37) = false := by simpa using hc
  match rest with
  | [] => simp [unescape]
  | [a] => simp [unescape]
  | a :: b :: t => simp [unescape, hbeq]

theorem unescape_decode_cons (a b : Nat) (ha : isUppercaseHexDigit a = true)
    (hb : isUppercaseHexDigit b = true) (rest : List Nat) :
    unescape (37 :: a :: b :: rest) =
      ((uppercaseHexDigitValue a) <<< 4 + uppercaseHexDigitValue b) :: unescape rest := by
  simp [unescape, ha, hb]

theorem unescape_of_no_escape :
    ∀ s : List Nat, hasEscapeSequence s = false → unescape s = s
  | [], _ => rfl
  | [c], _ => rfl
  | [c, a], _ => rfl
  | c :: a :: b :: rest, h => by
    rw [hasEscapeSequence] at h
    rcases Bool.or_eq_false_iff.mp h with ⟨h1, h2⟩
    rw [unescape, if_neg (by simp [h1])]
    rw [unescape_of_no_escape (a :: b :: rest) h2]

theorem unescape_escape (s : List Nat) : unescape (escape s) = s := by
  induction s with
  | nil => rfl
  | cons b rest ih =>
    by_cases h10 : b = 10
    · subst h10
      show unescape (37 :: 48 :: 65 :: escape rest) = 10 :: rest
      rw [unescape_decode_cons 48 65 (by decide) (by decide), ih]
      norm_num [uppercaseHexDigitValue]
    · by_cases h13 : b = 13
      · subst h13
        show unescape (37 :: 48 :: 68 :: escape rest) = 13 :: rest
        rw [unescape_decode_cons 48 68 (by decide) (by decide), ih]
        norm_num [uppercaseHexDigitValue]
      · by_cases h37 : b = 37
        · subst h37
          show unescape (37 :: 50 :: 53 :: escape rest) = 37 :: rest
          rw [unescape_decode_cons 50 53 (by decide) (by decide), ih]
          norm_num [uppercaseHexDigitValue, Nat.shiftLeft_eq]
        · have : escape (b :: rest) = b :: escape rest := by
            rw [escape, if_neg h10, if_neg h13, if_neg h37]
            rfl
          rw [this, unescape_cons_of_ne b h37, ih]

/-- C4: for every byte string `s` (in particular every combination of
line-feed, carriage-return and percent bytes), `unescape (escape s) = s`. -/
theorem claim_C4_unescape_escape_roundtrip (s : List Nat) :
    unescape (escape s) = s :=
  unescape_escape s

/-- C5: `unescape` replaces each `%XY` with `X`, `Y` uppercase hex digits by
the encoded byte `16*X + Y`; a `%` not followed by two valid uppercase hex
digits is passed through literally (as is every byte when fewer than three
bytes remain); on an input with no well-formed escape sequence at all, the
input is returned unchanged.  `unescape` is total, so it never fails. -/
theorem claim_C5_unescape_lenient :
    (∀ a b rest, isUppercaseHexDigit a = true → isUppercaseHexDigit b = true →
      unescape (37 :: a :: b :: rest) =
        (16 * uppercaseHexDigitValue a + uppercaseHexDigitValue b) :: unescape rest) ∧
    (∀ c a b rest, (c == 37 && isUppercaseHexDigit a && isUppercaseHexDigit b) = false →
      unescape (c :: a :: b :: rest) = c :: unescape (a :: b :: rest)) ∧
    (∀ c, unescape [c] = [c]) ∧
    (∀ c a, unescape [c, a] = [c, a]) ∧
    (∀ s, hasEscapeSequence s = false → unescape s = s) := by
  refine ⟨?_, ?_, ?_, ?_, unescape_of_no_escape⟩
  · intro a b rest ha hb
    rw [unescape_decode_cons a b ha hb, Nat.shiftLeft_eq]
    norm_num [Nat.mul_comm]
  · intro c a b rest h
    rw [unescape, if_neg (by simp [h])]
  · intro c
    rfl
  · intro c a
    rfl

/-- Witness for C5 at concrete inputs: `%0A` decodes to the byte 10, and the
all-malformed input `%zz%` is returned unchanged. -/
theorem claim_C5_unescape_lenient_witness :
    unescape [37, 48, 65] = [10] ∧ unescape [37, 122, 122, 37] = [37, 122, 122, 37] := by
  constructor
  · have h := claim_C5_unescape_lenient.1 48 65 [] (by decide) (by decide)
    simpa [uppercaseHexDigitValue, unescape] using h
  · exact claim_C5_unescape_lenient.2.2.2.2 [37, 122, 122, 37] (by decide)

/-! ## Error-decoding theorems -/

theorem takeWhile_digits_append (ds rest : List Nat)
    (h : ∀ d ∈ ds, isDigitByte d = true) :
    (ds ++ 32 :: rest).takeWhile isDigitByte = ds := by
  induction ds with
  | nil => simp [List.takeWhile, isDigitByte]
  | cons d ds ih =>
    have hd : isDigitByte d = true := h d (by simp)
    simp only [List.cons_append, List.takeWhile_cons, hd, if_true]
    rw [ih (fun x hx => h x (by simp [hx]))]

theorem errorRxFind_wellformed (ds desc : List Nat) (hne : ds ≠ [])
    (hds : ∀ d ∈ ds, isDigitByte d = true)
    (hdesc : desc.all (fun b => !(b == 10)) = true) :
    errorRxFind ([69, 82, 82, 32] ++ ds ++ 32 :: desc) = some (ds, desc) := by
  have hpre : startsWithBytes ([69, 82, 82, 32] ++ ds ++ 32 :: desc) [69, 82, 82, 32] = true := by
    simp [startsWithBytes, List.take_append]
  have hdrop : ([69, 82, 82, 32] ++ ds ++ 32 :: desc).drop 4 = ds ++ 32 :: desc := by
    rw [show ([69, 82, 82, 32] ++ ds ++ 32 :: desc) = [69, 82, 82, 32] ++ (ds ++ 32 :: desc) by simp]
    rw [show (4 : Nat) = ([69, 82, 82, 32] : List Nat).length by rfl, List.drop_left]
  have htake : (ds ++ 32 :: desc).takeWhile isDigitByte = ds :=
    takeWhile_digits_append ds desc hds
  rw [errorRxFind, if_pos hpre]
  simp only [hdrop, htake]
  rw [List.drop_left]
  match ds, hne with
  | d :: ds', _ => simp [hdesc]

/-- C6 (amended): an `ERR <digits> <rest>` line decodes to an `AssuanError`
whose description is the rest of the line and whose code is the digits parsed
as a non-negative integer when this value fits in a 64-bit `int`; when the
parse fails (the value overflows), the code is the clamped maximum `int`
value `2^63 - 1` (not `0`), with the description still preserved; every line
that fails to match the pattern yields an unexpected-response error carrying
the offending line. -/
theorem claim_C6_error_line_decoding :
    (∀ ds desc, ds ≠ [] → (∀ d ∈ ds, isDigitByte d = true) →
      desc.all (fun b => !(b == 10)) = true →
      newError ([69, 82, 82, 32] ++ ds ++ 32 :: desc) = .assuan (atoiDigits ds) desc) ∧
    (∀ ds, digitsToNat ds ≤ maxInt64 → atoiDigits ds = (digitsToNat ds : Int)) ∧
    (∀ ds, maxInt64 < digitsToNat ds → atoiDigits ds = ((maxInt64 : Nat) : Int)) ∧
    (∀ line, errorRxFind line = none → newError line = .unexpectedResponse line) := by
  refine ⟨?_, ?_, ?_, ?_⟩
  · intro ds desc hne hds hdesc
    rw [newError, errorRxFind_wellformed ds desc hne hds hdesc]
  · intro ds h
    rw [atoiDigits, if_pos h]
  · intro ds h
    rw [atoiDigits, if_neg (by omega)]
  · intro line h
    rw [newError, h]

/-- Witness for C6 (amended) at concrete inputs. -/
theorem claim_C6_error_line_decoding_witness :
    newError (strToBytes "ERR 83886179 cancelled") =
      .assuan (atoiDigits (strToBytes "83886179")) (strToBytes "cancelled") ∧
    atoiDigits (strToBytes "83886179") = ((83886179 : Nat) : Int) ∧
    atoiDigits (strToBytes "99999999999999999999") = ((9223372036854775807 : Nat) : Int) ∧
    newError (strToBytes "ERR 42") = .unexpectedResponse (strToBytes "ERR 42") := by
  refine ⟨?_, ?_, ?_, ?_⟩
  · have h := claim_C6_error_line_decoding.1 (strToBytes "83886179") (strToBytes "cancelled")
      (by decide) (by decide) (by decide)
    simpa using h
  · have h := claim_C6_error_line_decoding.2.1 (strToBytes "83886179") (by decide)
    simpa using h
  · have h := claim_C6_error_line_decoding.2.2.1 (strToBytes "99999999999999999999") (by decide)
    simpa using h
  · exact claim_C6_error_line_decoding.2.2.2 (strToBytes "ERR 42") (by decide)

/-- Counterexample to C6 as stated: on `ERR 99999999999999999999 x` the
numeric parse fails (the value exceeds the 64-bit `int` range), yet the
resulting code is the clamped maximum 9223372036854775807, not 0. -/
theorem claim_C6_counterexample :
    newError (strToBytes "ERR 99999999999999999999 x") =
      .assuan 9223372036854775807 (strToBytes "x") ∧
    (9223372036854775807 : Int) ≠ 0 := by
  constructor
  · decide
  · decide

/-! ## Session-engine lemmas -/

theorem isOK_shape {l : List Nat} (h : isOK l = true) : ∃ t, l = 79 :: 75 :: t := by
  match l with
  | [] => simp [isOK, startsWithBytes] at h
  | [a] => simp [isOK, startsWithBytes] at h
  | a :: b :: t =>
    simp [isOK, startsWithBytes] at h
    exact ⟨t, by simp [h.1, h.2]⟩

theorem skip_facts_of_isOK {l : List Nat} (h : isOK l = true) :
    isBlank l = false ∧ isComment l = false ∧ isError l = false := by
  obtain ⟨t, rfl⟩ := isOK_shape h
  refine ⟨?_, ?_, ?_⟩
  · simp [isBlank, isSpaceByte]
  · simp [isComment, startsWithBytes]
  · simp [isError, startsWithBytes]

theorem readLine_nil : readLine [] = (.error .readFailed, []) := rfl

theorem readLine_skip {l : List Nat} (h : isBlank l = true ∨ isComment l = true)
    (rest : List (List Nat)) : readLine (l :: rest) = readLine rest := by
  rw [readLine]
  rcases h with h | h
  · rw [if_pos h]
  · by_cases hb : isBlank l
    · rw [if_pos hb]
    · rw [if_neg hb, if_pos h]

theorem readLine_error_line {l : List Nat} (hb : isBlank l = false)
    (hc : isComment l = false) (he : isError l = true) (rest : List (List Nat)) :
    readLine (l :: rest) = (.error (newError l), rest) := by
  rw [readLine, if_neg (by simp [hb]), if_neg (by simp [hc]), if_pos he]

theorem readLine_ok {l : List Nat} (hb : isBlank l = false) (hc : isComment l = false)
    (he : isError l = false) (rest : List (List Nat)) :
    readLine (l :: rest) = (.ok l, rest) := by
  rw [readLine, if_neg (by simp [hb]), if_neg (by simp [hc]), if_neg (by simp [he])]

theorem readLine_no_skip {s rest : List (List Nat)} {l : List Nat}
    (h : readLine s = (.ok l, rest)) : isBlank l = false ∧ isComment l = false := by
  induction s with
  | nil => simp [readLine] at h
  | cons x s ih =>
    rw [readLine] at h
    by_cases hb : isBlank x
    · exact ih (by rwa [if_pos hb] at h)
    · rw [if_neg hb] at h
      by_cases hc : isComment x
      · exact ih (by rwa [if_pos hc] at h)
      · rw [if_neg hc] at h
        by_cases he : isError x
        · simp [he] at h
        · simp only [he, if_false] at h
          cases h
          exact ⟨by simpa using hb, by simpa using hc⟩

theorem getPINLoop_nil (qf : QualityFunc) (res : GetPINResult) :
    getPINLoop qf [] res = (emptyGetPINResult, some .readFailed, []) :=
  rfl

theorem getPINLoop_skip (qf : QualityFunc) {l : List Nat}
    (h : isBlank l = true ∨ isComment l = true) (rest : List (List Nat)) (res : GetPINResult) :
    getPINLoop qf (l :: rest) res = getPINLoop qf rest res := by
  rw [getPINLoop]
  by_cases hb : isBlank l
  · rw [if_pos hb]
  · rcases h with h | h
    · exact absurd h hb
    · rw [if_neg hb, if_pos h]

theorem getPINLoop_error_line (qf : QualityFunc) {l : List Nat} (hb : isBlank l = false)
    (hc : isComment l = false) (he : isError l = true) (rest : List (List Nat))
    (res : GetPINResult) :
    getPINLoop qf (l :: rest) res = (emptyGetPINResult, some (newError l), []) := by
  rw [getPINLoop, if_neg (by simp [hb]), if_neg (by simp [hc]), if_pos he]

theorem getPINLoop_ok_line (qf : QualityFunc) {l : List Nat} (hok : isOK l = true)
    (rest : List (List Nat)) (res : GetPINResult) :
    getPINLoop qf (l :: rest) res = (res, none, []) := by
  obtain ⟨hb, hc, he⟩ := skip_facts_of_isOK hok
  rw [getPINLoop, if_neg (by simp [hb]), if_neg (by simp [hc]), if_neg (by simp [he]),
    if_pos hok]

theorem startsWith_cons_ne {a b : Nat} (as bs : List Nat) (hab : a ≠ b) :
    startsWithBytes (a :: as) (b :: bs) = false := by
  simp [startsWithBytes, hab]

theorem getPINLoop_data_line (qf : QualityFunc) (payload : List Nat)
    (rest : List (List Nat)) (res : GetPINResult) :
    getPINLoop qf ((68 :: 32 :: payload) :: rest) res =
      getPINLoop qf rest { res with PIN := getPIN payload } := by
  have hb : isBlank (68 :: 32 :: payload) = false := by simp [isBlank, isSpaceByte]
  have hc : isComment (68 :: 32 :: payload) = false := startsWith_cons_ne _ _ (by decide)
  have he : isError (68 :: 32 :: payload) = false := startsWith_cons_ne _ _ (by decide)
  have hok : isOK (68 :: 32 :: payload) = false := startsWith_cons_ne _ _ (by decide)
  have hd : isData (68 :: 32 :: payload) = true := by simp [isData, startsWithBytes]
  rw [getPINLoop, if_neg (by simp [hb]), if_neg (by simp [hc]), if_neg (by simp [he]),
    if_neg (by simp [hok]), if_pos hd]
  rfl

theorem getPINLoop_cache_line (qf : QualityFunc) (rest : List (List Nat)) (res : GetPINResult) :
    getPINLoop qf (lineSPasswordFromCache :: rest) res =
      getPINLoop qf rest { res with PasswordFromCache := true } := by
  rw [getPINLoop, if_neg (by decide), if_neg (by decide), if_neg (by decide),
    if_neg (by decide), if_neg (by decide), if_pos (by decide)]

theorem getPINLoop_repeated_line (qf : QualityFunc) (rest : List (List Nat)) (res : GetPINResult) :
    getPINLoop qf (lineSPinRepeated :: rest) res =
      getPINLoop qf rest { res with PINRepeated := true } := by
  rw [getPINLoop, if_neg (by decide), if_neg (by decide), if_neg (by decide),
    if_neg (by decide), if_neg (by decide), if_neg (by decide), if_pos (by decide)]

theorem getPINLoop_inquire_line (qf : QualityFunc) (args : List Nat)
    (rest : List (List Nat)) (res : GetPINResult) :
    getPINLoop qf ((lineInquireQuality ++ args) :: rest) res =
      match qf (getPIN args) with
      | (quality, true) =>
        let q := if quality < -100 then -100 else if quality > 100 then 100 else quality
        let out := getPINLoop qf rest res
        (out.1, out.2.1, dQualityWrite q :: endWrite :: out.2.2)
      | (_, false) =>
        let out := getPINLoop qf rest res
        (out.1, out.2.1, canWrite :: out.2.2) := by
  have hshape : lineInquireQuality ++ args = 73 :: (78 :: 81 :: 85 :: 73 :: 82 :: 69 :: 32 ::
      81 :: 85 :: 65 :: 76 :: 73 :: 84 :: 89 :: 32 :: args) := by
    simp [lineInquireQuality]
  have hb : isBlank (lineInquireQuality ++ args) = false := by
    rw [hshape]; simp [isBlank, isSpaceByte]
  have hc : isComment (lineInquireQuality ++ args) = false := by
    rw [hshape]; exact startsWith_cons_ne _ _ (by decide)
  have he : isError (lineInquireQuality ++ args) = false := by
    rw [hshape]; exact startsWith_cons_ne _ _ (by decide)
  have hok : isOK (lineInquireQuality ++ args) = false := by
    rw [hshape]; exact startsWith_cons_ne _ _ (by decide)
  have hd : isData (lineInquireQuality ++ args) = false := by
    rw [hshape]; exact startsWith_cons_ne _ _ (by decide)
  have hne1 : ((lineInquireQuality ++ args) == lineSPasswordFromCache) = false := by
    rw [hshape]; simp [lineSPasswordFromCache]
  have hne2 : ((lineInquireQuality ++ args) == lineSPinRepeated) = false := by
    rw [hshape]; simp [lineSPinRepeated]
  have hinq : startsWithBytes (lineInquireQuality ++ args) lineInquireQuality = true := by
    simp only [startsWithBytes, show lineInquireQuality.length = 16 from by decide]
    rw [show (16 : Nat) = lineInquireQuality.length from by decide, List.take_left]
    simp
  have hdropargs : (lineInquireQuality ++ args).drop 16 = args := by
    rw [show (16 : Nat) = lineInquireQuality.length from by decide, List.drop_left]
  rw [getPINLoop, if_neg (by simp [hb]), if_neg (by simp [hc]), if_neg (by simp [he]),
    if_neg (by simp [hok]), if_neg (by simp [hd]), if_neg (by simp [hne1]),
    if_neg (by simp [hne2]), if_pos hinq, hdropargs]

theorem getPINLoop_unexpected_line (qf : QualityFunc) {l : List Nat}
    (hb : isBlank l = false) (hc : isComment l = false) (he : isError l = false)
    (hok : isOK l = false) (hd : isData l = false)
    (hne1 : (l == lineSPasswordFromCache) = false) (hne2 : (l == lineSPinRepeated) = false)
    (hinq : startsWithBytes l lineInquireQuality = false)
    (rest : List (List Nat)) (res : GetPINResult) :
    getPINLoop qf (l :: rest) res = (emptyGetPINResult, some (.unexpectedResponse l), []) := by
  rw [getPINLoop, if_neg (by simp [hb]), if_neg (by simp [hc]), if_neg (by simp [he]),
    if_neg (by simp [hok]), if_neg (by simp [hd]), if_neg (by simp [hne1]),
    if_neg (by simp [hne2]), if_neg (by simp [hinq])]

/-- C1: `GetPIN` on [`D abc`, `OK`] returns the value `abc` with both flags
false; on [`S PASSWORD_FROM_CACHE`, `D abc`, `OK`] it returns `abc` with the
from-cache flag true.  In general a data line sets the accumulated secret to
the lenient percent-decoding of its payload, `S PASSWORD_FROM_CACHE` sets the
from-cache flag, `S PIN_REPEATED` sets the repeated flag, and an OK line
terminates the loop returning the accumulated result with no error. -/
theorem claim_C1_getpin_loop :
    (∀ qf : QualityFunc, GetPIN qf [strToBytes "D abc", strToBytes "OK"] =
      (⟨strToBytes "abc", false, false⟩, none, [getpinWrite])) ∧
    (∀ qf : QualityFunc,
      GetPIN qf [strToBytes "S PASSWORD_FROM_CACHE", strToBytes "D abc", strToBytes "OK"] =
        (⟨strToBytes "abc", true, false⟩, none, [getpinWrite])) ∧
    (∀ (qf : QualityFunc) payload rest res,
      getPINLoop qf ((68 :: 32 :: payload) :: rest) res =
        getPINLoop qf rest { res with PIN := getPIN payload }) ∧
    (∀ (qf : QualityFunc) rest res,
      getPINLoop qf (lineSPasswordFromCache :: rest) res =
        getPINLoop qf rest { res with PasswordFromCache := true }) ∧
    (∀ (qf : QualityFunc) rest res,
      getPINLoop qf (lineSPinRepeated :: rest) res =
        getPINLoop qf rest { res with PINRepeated := true }) ∧
    (∀ (qf : QualityFunc) l rest res, isOK l = true →
      getPINLoop qf (l :: rest) res = (res, none, [])) := by
  have hD : strToBytes "D abc" = 68 :: 32 :: strToBytes "abc" := by decide
  have hS : strToBytes "S PASSWORD_FROM_CACHE" = lineSPasswordFromCache := by decide
  refine ⟨?_, ?_, getPINLoop_data_line, getPINLoop_cache_line, getPINLoop_repeated_line,
    fun qf l rest res hok => getPINLoop_ok_line qf hok rest res⟩
  · intro qf
    simp only [GetPIN, hD]
    rw [getPINLoop_data_line, getPINLoop_ok_line qf (by decide)]
    decide
  · intro qf
    simp only [GetPIN, hS, hD]
    rw [getPINLoop_cache_line, getPINLoop_data_line, getPINLoop_ok_line qf (by decide)]
    decide

/-- Witness for C1: its final conjunct applied to the concrete line `OK`. -/
theorem claim_C1_getpin_loop_witness :
    getPINLoop (fun _ => (0, false)) [strToBytes "OK"] emptyGetPINResult =
      (emptyGetPINResult, none, []) :=
  claim_C1_getpin_loop.2.2.2.2.2 (fun _ => (0, false)) (strToBytes "OK") [] emptyGetPINResult
    (by decide)

/-- C2: a quality inquiry line inside the `GetPIN` loop invokes the quality
callback on the decoded candidate; if the callback deems the score valid the
score is clamped into [-100, 100] (scores above 100 become 100, scores below
-100 become -100, in-range scores pass unchanged) and the lines `D <score>`
and `END` are written; if not, the line `CAN` is written instead; in both
cases no reply is read for the inquiry answer and the loop continues on the
remaining stream with unchanged state. -/
theorem claim_C2_quality_inquiry (qf : QualityFunc) (args : List Nat)
    (rest : List (List Nat)) (res : GetPINResult) :
    (∀ quality, qf (getPIN args) = (quality, true) →
      (let q := if quality < -100 then -100 else if quality > 100 then 100 else quality
       let out := getPINLoop qf rest res
       getPINLoop qf ((lineInquireQuality ++ args) :: rest) res =
         (out.1, out.2.1, dQualityWrite q :: endWrite :: out.2.2) ∧
       -100 ≤ q ∧ q ≤ 100 ∧
       (100 < quality → q = 100) ∧ (quality < -100 → q = -100) ∧
       (-100 ≤ quality → quality ≤ 100 → q = quality))) ∧
    (∀ quality, qf (getPIN args) = (quality, false) →
      let out := getPINLoop qf rest res
      getPINLoop qf ((lineInquireQuality ++ args) :: rest) res =
        (out.1, out.2.1, canWrite :: out.2.2)) := by
  constructor
  · intro quality hq
    refine ⟨?_, ?_, ?_, ?_, ?_, ?_⟩
    · rw [getPINLoop_inquire_line, hq]
    · split_ifs <;> omega
    · split_ifs <;> omega
    · intro h; split_ifs <;> omega
    · intro h; split_ifs <;> omega
    · intro h1 h2; split_ifs <;> omega
  · intro quality hq
    rw [getPINLoop_inquire_line, hq]

/-- Witness for C2: an always-valid callback returning 150 answers a concrete
inquiry with the clamped `D 100` then `END`; a no-opinion callback answers
with `CAN`. -/
theorem claim_C2_quality_inquiry_witness :
    getPINLoop (fun _ => (150, true)) [lineInquireQuality ++ strToBytes "a", strToBytes "OK"]
        emptyGetPINResult =
      (emptyGetPINResult, none, [dQualityWrite 100, endWrite]) ∧
    getPINLoop (fun _ => (0, false)) [lineInquireQuality ++ strToBytes "a", strToBytes "OK"]
        emptyGetPINResult =
      (emptyGetPINResult, none, [canWrite]) := by
  constructor
  · have h := (claim_C2_quality_inquiry (fun _ => (150, true)) (strToBytes "a")
      [strToBytes "OK"] emptyGetPINResult).1 150 rfl
    rw [h.1, getPINLoop_ok_line _ (by decide)]
    norm_num
  · have h := (claim_C2_quality_inquiry (fun _ => (0, false)) (strToBytes "a")
      [strToBytes "OK"] emptyGetPINResult).2 0 rfl
    rw [h, getPINLoop_ok_line _ (by decide)]

/-- C10: answering a quality inquiry never modifies the accumulated result:
the result and error components of the loop on a stream beginning with an
inquiry line equal those of the loop on the remaining stream with the same
accumulated result, for every callback, inquiry argument and state. -/
theorem claim_C10_inquiry_preserves_result (qf : QualityFunc) (args : List Nat)
    (rest : List (List Nat)) (res : GetPINResult) :
    (getPINLoop qf ((lineInquireQuality ++ args) :: rest) res).1 =
      (getPINLoop qf rest res).1 ∧
    (getPINLoop qf ((lineInquireQuality ++ args) :: rest) res).2.1 =
      (getPINLoop qf rest res).2.1 := by
  rw [getPINLoop_inquire_line]
  rcases hq : qf (getPIN args) with ⟨quality, b⟩
  cases b <;> simp

/-- C8: blank lines (empty or all whitespace) and comment lines (`#` prefix)
are skipped by every read, at any position of the stream: `readLine`,
`readOK` and the `GetPIN` loop are unchanged under consing such a line onto
the stream, and a line returned by `readLine` is never blank or a comment. -/
theorem claim_C8_blank_comment_skipped :
    (∀ (l : List Nat) (s : List (List Nat)), isBlank l = true ∨ isComment l = true →
      readLine (l :: s) = readLine s) ∧
    (∀ (l : List Nat) (s : List (List Nat)), isBlank l = true ∨ isComment l = true →
      readOK (l :: s) = readOK s) ∧
    (∀ (qf : QualityFunc) (l : List Nat) (s : List (List Nat)) (res : GetPINResult),
      isBlank l = true ∨ isComment l = true →
      getPINLoop qf (l :: s) res = getPINLoop qf s res) ∧
    (∀ (s rest : List (List Nat)) (l : List Nat), readLine s = (.ok l, rest) →
      isBlank l = false ∧ isComment l = false) := by
  refine ⟨fun l s h => readLine_skip h s, ?_, fun qf l s res h => getPINLoop_skip qf h s res,
    fun s rest l h => readLine_no_skip h⟩
  intro l s h
  rw [readOK, readLine_skip h s, readOK]

/-- Witness for C8: skipping a concrete blank line and a concrete comment
line in front of an `OK` line. -/
theorem claim_C8_blank_comment_skipped_witness :
    readLine [strToBytes "  ", strToBytes "# hi", strToBytes "OK"] =
      readLine [strToBytes "# hi", strToBytes "OK"] ∧
    readOK [strToBytes "# hi", strToBytes "OK"] = readOK [strToBytes "OK"] := by
  constructor
  · exact claim_C8_blank_comment_skipped.1 (strToBytes "  ")
      [strToBytes "# hi", strToBytes "OK"] (Or.inl (by decide))
  · exact claim_C8_blank_comment_skipped.2.1 (strToBytes "# hi") [strToBytes "OK"]
      (Or.inr (by decide))

/-- Faithfulness of the structural `getPINLoop` to the source shape: one
iteration is exactly a `readLine` followed by the `switch` dispatch of
`Client.GetPIN`. -/
theorem getPINLoop_eq_readLine (qf : QualityFunc) :
    ∀ (s : List (List Nat)) (res : GetPINResult),
    getPINLoop qf s res =
      match readLine s with
      | (.error e, _) => (emptyGetPINResult, some e, [])
      | (.ok l, rest) =>
        if isOK l then (res, none, [])
        else if isData l then
          getPINLoop qf rest { res with PIN := getPIN (l.drop 2) }
        else if l == lineSPasswordFromCache then
          getPINLoop qf rest { res with PasswordFromCache := true }
        else if l == lineSPinRepeated then
          getPINLoop qf rest { res with PINRepeated := true }
        else if startsWithBytes l lineInquireQuality then
          match qf (getPIN (l.drop 16)) with
          | (quality, true) =>
            let q := if quality < -100 then -100 else if quality > 100 then 100 else quality
            let out := getPINLoop qf rest res
            (out.1, out.2.1, dQualityWrite q :: endWrite :: out.2.2)
          | (_, false) =>
            let out := getPINLoop qf rest res
            (out.1, out.2.1, canWrite :: out.2.2)
        else (emptyGetPINResult, some (.unexpectedResponse l), [])
  | [], res => by rw [getPINLoop_nil, readLine_nil]
  | l :: rest, res => by
    by_cases hb : isBlank l
    · rw [getPINLoop_skip qf (Or.inl hb) rest res, readLine_skip (Or.inl hb) rest]
      exact getPINLoop_eq_readLine qf rest res
    · by_cases hc : isComment l
      · rw [getPINLoop_skip qf (Or.inr hc) rest res, readLine_skip (Or.inr hc) rest]
        exact getPINLoop_eq_readLine qf rest res
      · by_cases he : isError l
        · rw [getPINLoop_error_line qf (by simpa using hb) (by simpa using hc) he rest res,
            readLine_error_line (by simpa using hb) (by simpa using hc) he rest]
        · rw [readLine_ok (by simpa using hb) (by simpa using hc) (by simpa using he) rest,
            getPINLoop, if_neg hb, if_neg hc, if_neg he]

theorem getPINLoop_error_empty (qf : QualityFunc) :
    ∀ (s : List (List Nat)) (res : GetPINResult) (e : PinentryError),
      (getPINLoop qf s res).2.1 = some e → (getPINLoop qf s res).1 = emptyGetPINResult := by
  intro s
  induction s with
  | nil =>
    intro res e h
    rw [getPINLoop_nil]
  | cons l rest ih =>
    intro res e h
    rw [getPINLoop] at h ⊢
    by_cases h1 : isBlank l
    · rw [if_pos h1] at h ⊢; exact ih _ e h
    · rw [if_neg h1] at h ⊢
      by_cases h2 : isComment l
      · rw [if_pos h2] at h ⊢; exact ih _ e h
      · rw [if_neg h2] at h ⊢
        by_cases h3 : isError l
        · rw [if_pos h3]
        · rw [if_neg h3] at h ⊢
          by_cases h4 : isOK l
          · rw [if_pos h4] at h; simp at h
          · rw [if_neg h4] at h ⊢
            by_cases h5 : isData l
            · rw [if_pos h5] at h ⊢; exact ih _ e h
            · rw [if_neg h5] at h ⊢
              by_cases h6 : l == lineSPasswordFromCache
              · rw [if_pos h6] at h ⊢; exact ih _ e h
              · rw [if_neg h6] at h ⊢
                by_cases h7 : l == lineSPinRepeated
                · rw [if_pos h7] at h ⊢; exact ih _ e h
                · rw [if_neg h7] at h ⊢
                  by_cases h8 : startsWithBytes l lineInquireQuality
                  · rw [if_pos h8] at h ⊢
                    rcases hqf : qf (getPIN (List.drop 16 l)) with ⟨quality, b⟩
                    cases b
                    · simp only [hqf] at h ⊢
                      exact ih _ e h
                    · simp only [hqf] at h ⊢
                      exact ih _ e h
                  · rw [if_neg h8]

/-- C9: whenever `GetPIN` returns an error (transport failure, protocol error
line, or unexpected response), the accompanying result is the zero result —
empty secret, from-cache false, repeated false — even when data or status
lines had already been accumulated before the error. -/
theorem claim_C9_error_returns_zero_result (qf : QualityFunc) (s : List (List Nat))
    (e : PinentryError) (h : (GetPIN qf s).2.1 = some e) :
    (GetPIN qf s).1 = emptyGetPINResult := by
  simp only [GetPIN] at h ⊢
  exact getPINLoop_error_empty qf s emptyGetPINResult e h

/-- Witness for C9: a stream that supplies `D abc` and then ends gives a read
error, and the returned result is the zero result despite the accumulated
data line. -/
theorem claim_C9_error_returns_zero_result_witness :
    (GetPIN (fun _ => (0, false)) [strToBytes "D abc"]).1 = emptyGetPINResult := by
  refine claim_C9_error_returns_zero_result (fun _ => (0, false)) [strToBytes "D abc"]
    .readFailed ?_
  have hD : strToBytes "D abc" = 68 :: 32 :: strToBytes "abc" := by decide
  simp only [GetPIN, hD]
  rw [getPINLoop_data_line, getPINLoop_nil]

/-- C3: an `ERR <digits> <description>` line received during `GetPIN` makes
`GetPIN` return the decoded `AssuanError`; `IsCancelled` holds for an
`AssuanError` exactly when its code is 83886179 (`AssuanErrorCodeCancelled`),
and the digits `83886179` decode to that code, so an `ERR 83886179 ...` line
yields an error satisfying `IsCancelled` and any other numeric code yields an
error not satisfying it. -/
theorem claim_C3_cancelled_predicate :
    (∀ (qf : QualityFunc) (ds desc : List Nat) (rest : List (List Nat)),
      ds ≠ [] → (∀ d ∈ ds, isDigitByte d = true) →
      desc.all (fun b => !(b == 10)) = true →
      GetPIN qf (([69, 82, 82, 32] ++ ds ++ 32 :: desc) :: rest) =
        (emptyGetPINResult, some (.assuan (atoiDigits ds) desc), [getpinWrite])) ∧
    (∀ desc, IsCancelled (some (.assuan AssuanErrorCodeCancelled desc)) = true) ∧
    (∀ (code : Int) (desc : List Nat), code ≠ AssuanErrorCodeCancelled →
      IsCancelled (some (.assuan code desc)) = false) ∧
    atoiDigits (strToBytes "83886179") = AssuanErrorCodeCancelled := by
  refine ⟨?_, ?_, ?_, by decide⟩
  · intro qf ds desc rest hne hds hdesc
    have hb : isBlank ([69, 82, 82, 32] ++ ds ++ 32 :: desc) = false := by
      simp [isBlank, isSpaceByte]
    have hc : isComment ([69, 82, 82, 32] ++ ds ++ 32 :: desc) = false := by
      simp [isComment, startsWithBytes]
    have he : isError ([69, 82, 82, 32] ++ ds ++ 32 :: desc) = true := by
      simp [isError, startsWithBytes]
    simp only [GetPIN]
    rw [getPINLoop_error_line qf hb hc he rest, newError,
      errorRxFind_wellformed ds desc hne hds hdesc]
  · intro desc
    simp [IsCancelled]
  · intro code desc h
    simpa [IsCancelled] using h

/-- Witness for C3 at concrete inputs: a cancelled `ERR` line makes `GetPIN`
fail with an error satisfying `IsCancelled`; code 1 does not satisfy it. -/
theorem claim_C3_cancelled_predicate_witness :
    GetPIN (fun _ => (0, false)) [strToBytes "ERR 83886179 cancelled"] =
      (emptyGetPINResult,
       some (.assuan (atoiDigits (strToBytes "83886179")) (strToBytes "cancelled")),
       [getpinWrite]) ∧
    IsCancelled (some (.assuan AssuanErrorCodeCancelled (strToBytes "cancelled"))) = true ∧
    IsCancelled (some (.assuan 1 (strToBytes "fail"))) = false ∧
    atoiDigits (strToBytes "83886179") = AssuanErrorCodeCancelled := by
  have hline : strToBytes "ERR 83886179 cancelled" =
      [69, 82, 82, 32] ++ strToBytes "83886179" ++ 32 :: strToBytes "cancelled" := by decide
  refine ⟨?_, claim_C3_cancelled_predicate.2.1 (strToBytes "cancelled"),
    claim_C3_cancelled_predicate.2.2.1 1 (strToBytes "fail") (by decide),
    claim_C3_cancelled_predicate.2.2.2⟩
  rw [hline]
  exact claim_C3_cancelled_predicate.1 (fun _ => (0, false)) (strToBytes "83886179")
    (strToBytes "cancelled") [] (by decide) (by decide) (by decide)

/-! ## Client construction lemmas -/

theorem readOK_ok_line {g : List Nat} (hok : isOK g = true) (rest : List (List Nat)) :
    readOK (g :: rest) = (none, rest) := by
  obtain ⟨hb, hc, he⟩ := skip_facts_of_isOK hok
  rw [readOK, readLine_ok hb hc he rest]
  simp [hok]

theorem readOK_not_ok_line {l : List Nat} (hb : isBlank l = false) (hc : isComment l = false)
    (he : isError l = false) (hok : isOK l = false) (rest : List (List Nat)) :
    readOK (l :: rest) = (some (.unexpectedResponse l), rest) := by
  rw [readOK, readLine_ok hb hc he rest]
  simp [hok]

theorem runStartingCommands_all_ok :
    ∀ cmds : List (List Nat),
    runStartingCommands cmds (cmds.map (fun _ => ([79, 75] : List Nat))) =
      (none, cmds.map writeLineBytes, []) := by
  intro cmds
  induction cmds with
  | nil => rfl
  | cons c cs ih =>
    rw [List.map_cons, runStartingCommands]
    simp only [readOK_ok_line (g := [79, 75]) (by decide), ih, List.map_cons]

theorem runStartingCommands_abort {l : List Nat} (hb : isBlank l = false)
    (hc : isComment l = false) (he : isError l = false) (hok : isOK l = false) :
    ∀ (cmds1 : List (List Nat)) (c : List Nat) (cmds2 : List (List Nat))
      (rest : List (List Nat)),
    runStartingCommands (cmds1 ++ c :: cmds2)
        (cmds1.map (fun _ => ([79, 75] : List Nat)) ++ l :: rest) =
      (some (.unexpectedResponse l), (cmds1 ++ [c]).map writeLineBytes, rest) := by
  intro cmds1
  induction cmds1 with
  | nil =>
    intro c cmds2 rest
    rw [List.map_nil, List.nil_append, List.nil_append, runStartingCommands]
    simp only [readOK_not_ok_line hb hc he hok rest, List.nil_append, List.map_cons,
      List.map_nil]
  | cons c1 cs1 ih =>
    intro c cmds2 rest
    rw [List.map_cons, List.cons_append, List.cons_append, runStartingCommands]
    simp only [readOK_ok_line (g := [79, 75]) (by decide), ih c cmds2 rest,
      List.cons_append, List.map_cons]

/-- C7 (amended): during client construction the first line read must be OK;
if the line returned by the read is not OK (and, not being an `ERR ` line,
was not already turned into a protocol error by `readLine`), construction
fails with an unexpected-response error carrying the offending line; if the
greeting is an `ERR ` line, construction fails with its decoded Assuan error
instead; in both cases close runs exactly once and its error is combined
after the handshake error rather than replacing it.  On an OK greeting every
starting command is written in its configured order, each answered by OK,
yielding a client with no close; the first command whose reply is not OK
aborts the remaining commands and fails construction the same combined way,
having written exactly the commands up to and including the failing one. -/
theorem claim_C7_handshake :
    (∀ (commands : List (List Nat)) (l : List Nat) (rest : List (List Nat)),
      isBlank l = false → isComment l = false → isError l = false → isOK l = false →
      NewClientModel commands (l :: rest) =
        ⟨false, combineErrors (some (.unexpectedResponse l)) (closeModel rest).1, 1,
          (closeModel rest).2⟩) ∧
    (∀ (commands : List (List Nat)) (l : List Nat) (rest : List (List Nat)),
      isBlank l = false → isComment l = false → isError l = true →
      NewClientModel commands (l :: rest) =
        ⟨false, combineErrors (some (newError l)) (closeModel rest).1, 1,
          (closeModel rest).2⟩) ∧
    (∀ (commands : List (List Nat)) (g : List Nat), isOK g = true →
      NewClientModel commands (g :: commands.map (fun _ => ([79, 75] : List Nat))) =
        ⟨true, [], 0, commands.map writeLineBytes⟩) ∧
    (∀ (cmds1 : List (List Nat)) (c : List Nat) (cmds2 : List (List Nat))
       (g l : List Nat) (rest : List (List Nat)),
      isOK g = true → isBlank l = false → isComment l = false → isError l = false →
      isOK l = false →
      NewClientModel (cmds1 ++ c :: cmds2)
          (g :: (cmds1.map (fun _ => ([79, 75] : List Nat)) ++ l :: rest)) =
        ⟨false, combineErrors (some (.unexpectedResponse l)) (closeModel rest).1, 1,
          (cmds1 ++ [c]).map writeLineBytes ++ (closeModel rest).2⟩) := by
  refine ⟨?_, ?_, ?_, ?_⟩
  · intro commands l rest hb hc he hok
    rw [NewClientModel, readLine_ok hb hc he rest]
    simp only [hok, Bool.false_eq_true, if_false]
  · intro commands l rest hb hc he
    rw [NewClientModel, readLine_error_line hb hc he rest]
  · intro commands g hok
    obtain ⟨hb, hc, he⟩ := skip_facts_of_isOK hok
    rw [NewClientModel, readLine_ok hb hc he]
    simp only [hok, if_true, runStartingCommands_all_ok]
  · intro cmds1 c cmds2 g l rest hgok hb hc he hok
    obtain ⟨hgb, hgc, hge⟩ := skip_facts_of_isOK hgok
    rw [NewClientModel, readLine_ok hgb hgc hge]
    simp only [hgok, if_true, runStartingCommands_abort hb hc he hok cmds1 c cmds2 rest]

/-- Witness for C7 (amended) at concrete inputs: a `NOPE` greeting fails with
the unexpected-response error combined with the close error and one close; an
`OK` greeting with one command answered `OK` succeeds with no close. -/
theorem claim_C7_handshake_witness :
    NewClientModel [strToBytes "SETDESC d"] [strToBytes "NOPE"] =
      ⟨false, combineErrors (some (.unexpectedResponse (strToBytes "NOPE")))
        (closeModel []).1, 1, (closeModel []).2⟩ ∧
    NewClientModel [strToBytes "SETDESC d"] [strToBytes "OK", [79, 75]] =
      ⟨true, [], 0, [writeLineBytes (strToBytes "SETDESC d")]⟩ := by
  constructor
  · exact claim_C7_handshake.1 [strToBytes "SETDESC d"] (strToBytes "NOPE") []
      (by decide) (by decide) (by decide) (by decide)
  · have h := claim_C7_handshake.2.2.1 [strToBytes "SETDESC d"] (strToBytes "OK") (by decide)
    simpa using h

/-- Counterexample to C7 as stated: when the greeting line is
`ERR 1 nope`, construction fails and close runs once, but the handshake error
is the decoded Assuan error, not an unexpected-response error carrying the
line. -/
theorem claim_C7_counterexample :
    (NewClientModel [] [strToBytes "ERR 1 nope"]).errs.head? =
      some (.assuan 1 (strToBytes "nope")) ∧
    PinentryError.assuan 1 (strToBytes "nope") ≠
      PinentryError.unexpectedResponse (strToBytes "ERR 1 nope") ∧
    (NewClientModel [] [strToBytes "ERR 1 nope"]).closeCount = 1 := by
  refine ⟨by decide, by decide, by decide⟩

end Pinentry
